import Mathlib

/-!
Verification of the physics core of the Galilean/Lorentz animation scripts.

The functions below are shallow embeddings, over the real numbers, of the
pure physics functions in lorentz_utils.py (ramp_v, gamma,
galilean_transform, lorentz_transform), of the frame constants shared by the
two Galilean driver scripts, and of the inline per-frame velocity formula of
the Lorentz driver script (lorentz.py, function run, inner function animate).
-/

namespace LorentzViz

/-- PAUSE_FRAMES from lorentz_utils.py: pause length in frames. -/
def PAUSE_FRAMES : ℤ := 36

/-- RAMP_FRAMES from lorentz_utils.py: ramp length in frames. -/
def RAMP_FRAMES : ℤ := 401

/-- TOTAL_FRAMES from lorentz_utils.py: PAUSE_FRAMES + RAMP_FRAMES. -/
def TOTAL_FRAMES : ℤ := PAUSE_FRAMES + RAMP_FRAMES

/-- Pause length local to lorentz.py (overrides the shared default). -/
def LORENTZ_PAUSE_FRAMES : ℤ := 108

/-- Ramp length local to lorentz.py. -/
def LORENTZ_RAMP_FRAMES : ℤ := 1203

/-- Total frame count local to lorentz.py. -/
def LORENTZ_TOTAL_FRAMES : ℤ := LORENTZ_PAUSE_FRAMES + LORENTZ_RAMP_FRAMES

/-- ramp_v from lorentz_utils.py: v_max * max(0, frame - pause) / n_ramp.
Frame arguments are integers in every caller; the result is a real. -/
noncomputable def ramp_v (frame pause n_ramp : ℤ) (v_max : ℝ) : ℝ :=
  v_max * ((max 0 (frame - pause) : ℤ) : ℝ) / (n_ramp : ℝ)

/-- The velocity the two Galilean drivers use at a frame: ramp_v with its
default arguments pause = PAUSE_FRAMES, n_ramp = RAMP_FRAMES - 1,
v_max = 0.99. -/
noncomputable def galilean_driver_v (frame : ℤ) : ℝ :=
  ramp_v frame PAUSE_FRAMES (RAMP_FRAMES - 1) (99 / 100)

/-- The velocity the Lorentz driver computes inline each frame:
ramp = max(0, frame - PAUSE_FRAMES); v = 0.99 * ramp / 1200, with the
local PAUSE_FRAMES = 108. -/
noncomputable def lorentz_driver_v (frame : ℤ) : ℝ :=
  99 / 100 * ((max 0 (frame - LORENTZ_PAUSE_FRAMES) : ℤ) : ℝ) / 1200

/-- gamma from lorentz_utils.py:
1.0 / np.sqrt(1.0 - v**2) if v < 1.0 else 1e6, read over the reals. -/
noncomputable def gamma (v : ℝ) : ℝ :=
  if v < 1 then 1 / Real.sqrt (1 - v ^ 2) else 1000000

/-- Special float values that the gamma expression can produce under numpy
semantics: a finite real, positive infinity, or NaN. -/
inductive FVal where
  | fin (x : ℝ) : FVal
  | inf : FVal
  | nan : FVal

/-- gamma from lorentz_utils.py again, but tracking the numpy special-value
semantics of the same expression: np.sqrt of a negative argument is NaN and
1.0 / NaN is NaN; 1.0 / np.sqrt(0.0) = 1.0 / 0.0 is positive infinity;
otherwise the value is the finite real 1 / sqrt(1 - v^2), and for v >= 1 the
guard returns the finite sentinel 1e6. -/
noncomputable def gammaIEEE (v : ℝ) : FVal :=
  if v < 1 then
    if 1 - v ^ 2 < 0 then FVal.nan
    else if 1 - v ^ 2 = 0 then FVal.inf
    else FVal.fin (1 / Real.sqrt (1 - v ^ 2))
  else FVal.fin 1000000

/-- galilean_transform from lorentz_utils.py: (x - v * ct, ct). -/
noncomputable def galilean_transform (x ct v : ℝ) : ℝ × ℝ :=
  (x - v * ct, ct)

/-- lorentz_transform from lorentz_utils.py:
g = gamma v; (g * (x - v * ct), g * (ct - v * x)). -/
noncomputable def lorentz_transform (x ct v : ℝ) : ℝ × ℝ :=
  (gamma v * (x - v * ct), gamma v * (ct - v * x))

/-- The spacetime interval of an event, x^2 - ct^2, as computed in lorentz.py
and in the test suite. -/
noncomputable def interval (p : ℝ × ℝ) : ℝ :=
  p.1 ^ 2 - p.2 ^ 2

/- Helper lemmas (shared; not tied to any single claim). -/

lemma gamma_of_lt_one {v : ℝ} (h : v < 1) :
    gamma v = 1 / Real.sqrt (1 - v ^ 2) := if_pos h

lemma sqrt_one_sub_sq {v : ℝ} (h : v ^ 2 ≤ 1) :
    Real.sqrt (1 - v ^ 2) ^ 2 = 1 - v ^ 2 :=
  Real.sq_sqrt (by linarith)

lemma sqrt_one_sub_pos {v : ℝ} (h : v ^ 2 < 1) :
    0 < Real.sqrt (1 - v ^ 2) :=
  Real.sqrt_pos.mpr (by linarith)

lemma gamma_sq_mul {v : ℝ} (h1 : v < 1) (h2 : v ^ 2 < 1) :
    gamma v ^ 2 * (1 - v ^ 2) = 1 := by
  rw [gamma_of_lt_one h1, div_pow, one_pow, sqrt_one_sub_sq h2.le,
    one_div_mul_cancel (by linarith)]

/-- Claim C2: the Galilean transform returns exactly (x - v * ct, ct) for every
event and every real velocity v, the time coordinate is unchanged, and the
origin is a fixed point. -/
theorem galilean_transform_exact (x ct v : ℝ) :
    galilean_transform x ct v = (x - v * ct, ct) ∧
    (galilean_transform x ct v).2 = ct ∧
    galilean_transform 0 0 v = (0, 0) := by
  refine ⟨rfl, rfl, ?_⟩
  simp [galilean_transform]

/-- Claim C5: for every v ≥ 1 gamma returns the sentinel 1e6, and under the
special-value model of the same expression the result is the finite sentinel,
neither NaN nor infinity. -/
theorem gamma_sentinel_superluminal (v : ℝ) (h : 1 ≤ v) :
    gamma v = 1000000 ∧ gammaIEEE v = FVal.fin 1000000 := by
  have h1 : ¬ v < 1 := not_lt.mpr h
  exact ⟨if_neg h1, if_neg h1⟩

/-- Witness for claim C5 at v = 3/2. -/
theorem gamma_sentinel_superluminal_witness :
    (1 : ℝ) ≤ 3 / 2 ∧ gamma (3 / 2) = 1000000 ∧
    gammaIEEE (3 / 2) = FVal.fin 1000000 :=
  ⟨by norm_num, (gamma_sentinel_superluminal (3 / 2) (by norm_num)).1,
   (gamma_sentinel_superluminal (3 / 2) (by norm_num)).2⟩

/-- Claim C6: for every v in [0, 1), gamma v = 1 / sqrt(1 - v^2) is at least 1,
and gamma 0 equals exactly 1. -/
theorem gamma_ge_one (v : ℝ) (h0 : 0 ≤ v) (h1 : v < 1) :
    1 ≤ gamma v ∧ gamma 0 = 1 := by
  constructor
  · have hv2 : v ^ 2 < 1 := by nlinarith
    have hsp : 0 < Real.sqrt (1 - v ^ 2) := sqrt_one_sub_pos hv2
    have hle : Real.sqrt (1 - v ^ 2) ≤ 1 := Real.sqrt_le_one.mpr (by nlinarith)
    rw [gamma_of_lt_one h1, le_div_iff₀ hsp, one_mul]
    exact hle
  · rw [gamma_of_lt_one (show (0 : ℝ) < 1 by norm_num)]
    norm_num [Real.sqrt_one]

/-- Witness for claim C6 at v = 1/2. -/
theorem gamma_ge_one_witness :
    (0 : ℝ) ≤ 1 / 2 ∧ (1 / 2 : ℝ) < 1 ∧ 1 ≤ gamma (1 / 2) ∧ gamma 0 = 1 :=
  ⟨by norm_num, by norm_num,
   (gamma_ge_one (1 / 2) (by norm_num) (by norm_num)).1,
   (gamma_ge_one (1 / 2) (by norm_num) (by norm_num)).2⟩

/-- Claim C1: for every event (x, ct) and every v with 0 ≤ v < 1 the Lorentz
transform preserves the spacetime interval exactly over the reals, and the
origin is a fixed point. -/
theorem lorentz_preserves_interval (x ct v : ℝ) (h0 : 0 ≤ v) (h1 : v < 1) :
    interval (lorentz_transform x ct v) = interval (x, ct) ∧
    lorentz_transform 0 0 v = (0, 0) := by
  have hv2 : v ^ 2 < 1 := by nlinarith
  have hg := gamma_sq_mul h1 hv2
  constructor
  · simp only [interval, lorentz_transform]
    linear_combination (x ^ 2 - ct ^ 2) * hg
  · simp [lorentz_transform]

/-- Witness for claim C1 at event (1, 0) with v = 3/5. -/
theorem lorentz_preserves_interval_witness :
    (0 : ℝ) ≤ 3 / 5 ∧ (3 / 5 : ℝ) < 1 ∧
    interval (lorentz_transform 1 0 (3 / 5)) = interval (1, 0) ∧
    lorentz_transform 0 0 (3 / 5) = (0, 0) :=
  ⟨by norm_num, by norm_num,
   (lorentz_preserves_interval 1 0 (3 / 5) (by norm_num) (by norm_num)).1,
   (lorentz_preserves_interval 1 0 (3 / 5) (by norm_num) (by norm_num)).2⟩

/-- Claim C3 counterexample: ramp_v is not clamped at v_max. With the default
parameters (pause 36, n_ramp 400, v_max 0.99), one frame past the ramp window
the returned velocity already exceeds v_max. -/
theorem ramp_v_not_clamped :
    ramp_v 437 36 400 (99 / 100) > 99 / 100 := by
  have h : max (0 : ℤ) (437 - 36) = 401 := by norm_num
  rw [ramp_v, h]
  norm_num

/-- Claim C3 amended: for pause ≥ 0, n_ramp > 0, v_max > 0, ramp_v returns 0
before the pause, is nonnegative, is non-decreasing in the frame index, and is
bounded by v_max for every frame up to pause + n_ramp; the code contains no
clamp, so past that frame the value exceeds v_max. -/
theorem ramp_v_props (frame frame2 pause n_ramp : ℤ) (v_max : ℝ)
    (hp : 0 ≤ pause) (hn : 0 < n_ramp) (hv : 0 < v_max) :
    (frame < pause → ramp_v frame pause n_ramp v_max = 0) ∧
    0 ≤ ramp_v frame pause n_ramp v_max ∧
    (frame ≤ frame2 →
      ramp_v frame pause n_ramp v_max ≤ ramp_v frame2 pause n_ramp v_max) ∧
    (frame ≤ pause + n_ramp → ramp_v frame pause n_ramp v_max ≤ v_max) := by
  have hnR : (0 : ℝ) < (n_ramp : ℝ) := by exact_mod_cast hn
  refine ⟨?_, ?_, ?_, ?_⟩
  · intro hf
    have h : max (0 : ℤ) (frame - pause) = 0 := max_eq_left (by linarith)
    rw [ramp_v, h]
    simp
  · rw [ramp_v]
    apply div_nonneg _ hnR.le
    apply mul_nonneg hv.le
    exact_mod_cast le_max_left (0 : ℤ) (frame - pause)
  · intro hle
    rw [ramp_v, ramp_v]
    apply div_le_div_of_nonneg_right _ hnR.le
    apply mul_le_mul_of_nonneg_left _ hv.le
    exact_mod_cast max_le_max (le_refl (0 : ℤ)) (by linarith)
  · intro hle
    have hm : ((max 0 (frame - pause) : ℤ) : ℝ) ≤ (n_ramp : ℝ) := by
      exact_mod_cast max_le hn.le (by linarith)
    rw [ramp_v, div_le_iff₀ hnR]
    exact mul_le_mul_of_nonneg_left hm hv.le

/-- Witness for the amended claim C3 at frame 10, frame2 40, with the default
parameters of the Galilean drivers. -/
theorem ramp_v_props_witness :
    (0 : ℤ) ≤ 36 ∧ (0 : ℤ) < 400 ∧ (0 : ℝ) < 99 / 100 ∧
    (((10 : ℤ) < 36 → ramp_v 10 36 400 (99 / 100) = 0) ∧
     0 ≤ ramp_v 10 36 400 (99 / 100) ∧
     ((10 : ℤ) ≤ 40 → ramp_v 10 36 400 (99 / 100) ≤ ramp_v 40 36 400 (99 / 100)) ∧
     ((10 : ℤ) ≤ 36 + 400 → ramp_v 10 36 400 (99 / 100) ≤ 99 / 100)) :=
  ⟨by norm_num, by norm_num, by norm_num,
   ramp_v_props 10 40 36 400 (99 / 100) (by norm_num) (by norm_num) (by norm_num)⟩

/-- Claim C4: at every frame of each animation the driver velocity satisfies
0 ≤ v < 1 — for the Galilean drivers (ramp_v with its defaults over
TOTAL_FRAMES frames) and for the Lorentz driver (the inline formula over its
own TOTAL_FRAMES) — so gamma stays on its square-root branch and the sentinel
branch is never taken during a run. -/
theorem driver_velocity_subluminal (frame : ℤ) (h0 : 0 ≤ frame) :
    (frame < TOTAL_FRAMES →
      0 ≤ galilean_driver_v frame ∧ galilean_driver_v frame < 1 ∧
      gamma (galilean_driver_v frame) =
        1 / Real.sqrt (1 - galilean_driver_v frame ^ 2)) ∧
    (frame < LORENTZ_TOTAL_FRAMES →
      0 ≤ lorentz_driver_v frame ∧ lorentz_driver_v frame < 1 ∧
      gamma (lorentz_driver_v frame) =
        1 / Real.sqrt (1 - lorentz_driver_v frame ^ 2)) := by
  constructor
  · intro hf
    have hf' : frame - 36 ≤ 400 := by
      simp only [TOTAL_FRAMES, PAUSE_FRAMES, RAMP_FRAMES] at hf
      omega
    have hm0 : (0 : ℝ) ≤ ((max 0 (frame - 36) : ℤ) : ℝ) := by
      exact_mod_cast le_max_left (0 : ℤ) (frame - 36)
    have hm1 : ((max 0 (frame - 36) : ℤ) : ℝ) ≤ 400 := by
      exact_mod_cast max_le (by norm_num) hf'
    have hval : galilean_driver_v frame =
        99 / 100 * ((max 0 (frame - 36) : ℤ) : ℝ) / 400 := by
      simp only [galilean_driver_v, ramp_v, PAUSE_FRAMES, RAMP_FRAMES]
      norm_num
    have h0v : 0 ≤ galilean_driver_v frame := by
      rw [hval]
      exact div_nonneg (mul_nonneg (by norm_num) hm0) (by norm_num)
    have h1v : galilean_driver_v frame < 1 := by
      rw [hval]
      linarith
    exact ⟨h0v, h1v, gamma_of_lt_one h1v⟩
  · intro hf
    have hf' : frame - 108 ≤ 1202 := by
      simp only [LORENTZ_TOTAL_FRAMES, LORENTZ_PAUSE_FRAMES,
        LORENTZ_RAMP_FRAMES] at hf
      omega
    have hm0 : (0 : ℝ) ≤ ((max 0 (frame - 108) : ℤ) : ℝ) := by
      exact_mod_cast le_max_left (0 : ℤ) (frame - 108)
    have hm1 : ((max 0 (frame - 108) : ℤ) : ℝ) ≤ 1202 := by
      exact_mod_cast max_le (by norm_num) hf'
    have hval : lorentz_driver_v frame =
        99 / 100 * ((max 0 (frame - 108) : ℤ) : ℝ) / 1200 := by
      simp only [lorentz_driver_v, LORENTZ_PAUSE_FRAMES]
    have h0v : 0 ≤ lorentz_driver_v frame := by
      rw [hval]
      exact div_nonneg (mul_nonneg (by norm_num) hm0) (by norm_num)
    have h1v : lorentz_driver_v frame < 1 := by
      rw [hval]
      linarith
    exact ⟨h0v, h1v, gamma_of_lt_one h1v⟩

/-- Witness for claim C4 at frame 200, which is inside both frame ranges. -/
theorem driver_velocity_subluminal_witness :
    (0 : ℤ) ≤ 200 ∧
    (0 ≤ galilean_driver_v 200 ∧ galilean_driver_v 200 < 1 ∧
      gamma (galilean_driver_v 200) =
        1 / Real.sqrt (1 - galilean_driver_v 200 ^ 2)) ∧
    (0 ≤ lorentz_driver_v 200 ∧ lorentz_driver_v 200 < 1 ∧
      gamma (lorentz_driver_v 200) =
        1 / Real.sqrt (1 - lorentz_driver_v 200 ^ 2)) :=
  ⟨by norm_num,
   (driver_velocity_subluminal 200 (by norm_num)).1
     (by simp only [TOTAL_FRAMES, PAUSE_FRAMES, RAMP_FRAMES]; norm_num),
   (driver_velocity_subluminal 200 (by norm_num)).2
     (by simp only [LORENTZ_TOTAL_FRAMES, LORENTZ_PAUSE_FRAMES,
           LORENTZ_RAMP_FRAMES]; norm_num)⟩

/-- Claim C7 counterexample: the claim quantifies over every event with
nonzero time coordinate and every nonzero velocity, but at v = 1 the event
(1, 2) keeps its interval under the Galilean transform, because x = v * ct / 2
makes the change in the interval vanish. -/
theorem galilean_interval_preserved_counterexample :
    (1 : ℝ) ≠ 0 ∧ (2 : ℝ) ≠ 0 ∧
    interval (galilean_transform 1 2 1) = interval (1, 2) := by
  norm_num [interval, galilean_transform]

/-- Claim C7 amended: for every v ≠ 0 and every event with ct ≠ 0 such that
v * ct ≠ 2 * x, the Galilean transform changes the spacetime interval; in
particular event (0, 1) at v = 0.6 has interval different from -1. -/
theorem galilean_changes_interval (x ct v : ℝ) (hv : v ≠ 0) (hct : ct ≠ 0)
    (hx : v * ct ≠ 2 * x) :
    interval (galilean_transform x ct v) ≠ interval (x, ct) ∧
    interval (galilean_transform 0 1 (3 / 5)) ≠ -1 := by
  constructor
  · intro hEq
    simp only [interval, galilean_transform] at hEq
    have h0 : v * ct * (v * ct - 2 * x) = 0 := by linear_combination hEq
    rcases mul_eq_zero.mp h0 with h | h
    · exact mul_ne_zero hv hct h
    · exact hx (by linarith)
  · norm_num [interval, galilean_transform]

/-- Witness for the amended claim C7 at event (0, 1) with v = 3/5. -/
theorem galilean_changes_interval_witness :
    (3 / 5 : ℝ) ≠ 0 ∧ (1 : ℝ) ≠ 0 ∧ (3 / 5 : ℝ) * 1 ≠ 2 * 0 ∧
    interval (galilean_transform 0 1 (3 / 5)) ≠ interval (0, 1) :=
  ⟨by norm_num, by norm_num, by norm_num,
   (galilean_changes_interval 0 1 (3 / 5) (by norm_num) (by norm_num)
     (by norm_num)).1⟩

/-- Claim C9 counterexample: the claim says every v ≤ -1 makes gamma produce
NaN, but at v = -1 the argument of the square root is exactly 0, not negative,
and 1.0 / 0.0 is positive infinity under the float semantics, not NaN. -/
theorem gamma_neg_one_is_inf :
    (-1 : ℝ) ≤ -1 ∧ gammaIEEE (-1) = FVal.inf := by
  refine ⟨le_refl _, ?_⟩
  rw [gammaIEEE, if_pos (by norm_num : (-1 : ℝ) < 1)]
  norm_num

/-- Claim C9 amended: the guard in gamma tests only v < 1, so negative
super-luminal input reaches the square root: for every v < -1 the argument
1 - v^2 is negative and the result is NaN, while at v = -1 exactly the result
is positive infinity from the division by zero; in neither case is the
sentinel returned. -/
theorem gamma_superluminal_negative (v : ℝ) (h : v ≤ -1) :
    (v < -1 → gammaIEEE v = FVal.nan) ∧
    (v = -1 → gammaIEEE v = FVal.inf) ∧
    gammaIEEE v ≠ FVal.fin 1000000 := by
  have h1 : v < 1 := by linarith
  refine ⟨?_, ?_, ?_⟩
  · intro hlt
    have hneg : 1 - v ^ 2 < 0 := by nlinarith
    rw [gammaIEEE, if_pos h1, if_pos hneg]
  · intro hEq
    subst hEq
    rw [gammaIEEE, if_pos (by norm_num : (-1 : ℝ) < 1)]
    norm_num
  · have hle : 1 - v ^ 2 ≤ 0 := by nlinarith
    rw [gammaIEEE, if_pos h1]
    rcases lt_or_eq_of_le hle with hlt | hEq
    · rw [if_pos hlt]
      intro hc
      exact FVal.noConfusion hc
    · rw [if_neg (by linarith), if_pos hEq]
      intro hc
      exact FVal.noConfusion hc

/-- Witness for the amended claim C9 at v = -2. -/
theorem gamma_superluminal_negative_witness :
    (-2 : ℝ) ≤ -1 ∧ gammaIEEE (-2) = FVal.nan ∧
    gammaIEEE (-2) ≠ FVal.fin 1000000 :=
  ⟨by norm_num,
   (gamma_superluminal_negative (-2) (by norm_num)).1 (by norm_num),
   (gamma_superluminal_negative (-2) (by norm_num)).2.2⟩

/-- Claim C10: a boost by -v inverts a boost by v: exactly for the Galilean
transform at every real v, and for the Lorentz transform whenever |v| < 1
(where gamma(-v) = gamma(v)). -/
theorem boost_neg_inverse (x ct v : ℝ) :
    galilean_transform (galilean_transform x ct v).1
      (galilean_transform x ct v).2 (-v) = (x, ct) ∧
    (|v| < 1 →
      lorentz_transform (lorentz_transform x ct v).1
        (lorentz_transform x ct v).2 (-v) = (x, ct)) := by
  constructor
  · simp only [galilean_transform, Prod.mk.injEq]
    exact ⟨by ring, trivial⟩
  · intro hv
    have hv1 : v < 1 := (abs_lt.mp hv).2
    have hvn : -v < 1 := by
      have := (abs_lt.mp hv).1
      linarith
    have hv2 : v ^ 2 < 1 := by
      have ha := (abs_lt.mp hv).1
      have hb := (abs_lt.mp hv).2
      nlinarith
    have hgn : gamma (-v) = gamma v := by
      rw [gamma_of_lt_one hv1, gamma_of_lt_one hvn]
      have hsq : 1 - (-v) ^ 2 = 1 - v ^ 2 := by ring
      rw [hsq]
    have hg := gamma_sq_mul hv1 hv2
    simp only [lorentz_transform, hgn, Prod.mk.injEq]
    constructor
    · linear_combination x * hg
    · linear_combination ct * hg

/-- Witness for claim C10 at event (1, 2) with v = 1/2. -/
theorem boost_neg_inverse_witness :
    |(1 / 2 : ℝ)| < 1 ∧
    galilean_transform (galilean_transform 1 2 (1 / 2)).1
      (galilean_transform 1 2 (1 / 2)).2 (-(1 / 2)) = (1, 2) ∧
    lorentz_transform (lorentz_transform 1 2 (1 / 2)).1
      (lorentz_transform 1 2 (1 / 2)).2 (-(1 / 2)) = (1, 2) := by
  have habs : |(1 / 2 : ℝ)| < 1 := by
    rw [abs_of_nonneg (by norm_num : (0 : ℝ) ≤ 1 / 2)]
    norm_num
  exact ⟨habs, (boost_neg_inverse 1 2 (1 / 2)).1,
    (boost_neg_inverse 1 2 (1 / 2)).2 habs⟩

/-- gamma tends to 1 as the velocity tends to 0 from the right. -/
lemma gamma_tendsto_one :
    Filter.Tendsto gamma (nhdsWithin 0 (Set.Ioi 0)) (nhds 1) := by
  have hcont : Continuous fun v : ℝ => Real.sqrt (1 - v ^ 2) := by continuity
  have hca : ContinuousAt (fun v : ℝ => 1 / Real.sqrt (1 - v ^ 2)) 0 :=
    ContinuousAt.div continuousAt_const hcont.continuousAt
      (by norm_num [Real.sqrt_one])
  have ht : Filter.Tendsto (fun v : ℝ => 1 / Real.sqrt (1 - v ^ 2))
      (nhdsWithin 0 (Set.Ioi 0))
      (nhds ((fun v : ℝ => 1 / Real.sqrt (1 - v ^ 2)) 0)) :=
    hca.tendsto.mono_left nhdsWithin_le_nhds
  have h0 : Filter.Tendsto (fun v : ℝ => 1 / Real.sqrt (1 - v ^ 2))
      (nhdsWithin 0 (Set.Ioi 0)) (nhds 1) := by
    have hval : (fun v : ℝ => 1 / Real.sqrt (1 - v ^ 2)) 0 = 1 := by
      norm_num [Real.sqrt_one]
    rw [hval] at ht
    exact ht
  refine h0.congr' ?_
  have hmem : Set.Iio (1 : ℝ) ∈ nhdsWithin (0 : ℝ) (Set.Ioi 0) :=
    nhdsWithin_le_nhds (Iio_mem_nhds (by norm_num))
  filter_upwards [hmem] with v hv
  exact (gamma_of_lt_one hv).symm

/-- Claim C8: for a purely temporal event (0, ct) both components of the
difference between the Lorentz and the Galilean transform tend to 0 as the
velocity tends to 0 from the right, and concretely at v = 0.001 with ct = 2
each component differs by at most 1e-5 in absolute value. -/
theorem lorentz_tendsto_galilean (ct : ℝ) :
    Filter.Tendsto
      (fun v => (lorentz_transform 0 ct v).1 - (galilean_transform 0 ct v).1)
      (nhdsWithin 0 (Set.Ioi 0)) (nhds 0) ∧
    Filter.Tendsto
      (fun v => (lorentz_transform 0 ct v).2 - (galilean_transform 0 ct v).2)
      (nhdsWithin 0 (Set.Ioi 0)) (nhds 0) ∧
    |(lorentz_transform 0 2 (1 / 1000)).1 -
      (galilean_transform 0 2 (1 / 1000)).1| ≤ 1 / 100000 ∧
    |(lorentz_transform 0 2 (1 / 1000)).2 -
      (galilean_transform 0 2 (1 / 1000)).2| ≤ 1 / 100000 := by
  have hlin : Filter.Tendsto (fun v : ℝ => 0 - v * ct)
      (nhdsWithin 0 (Set.Ioi 0)) (nhds 0) := by
    have hc : Continuous fun v : ℝ => 0 - v * ct := by continuity
    have ht := hc.continuousAt.tendsto.mono_left
      (nhdsWithin_le_nhds :
        nhdsWithin (0 : ℝ) (Set.Ioi 0) ≤ nhds 0)
    simpa using ht
  have hconst : Filter.Tendsto (fun v : ℝ => ct - v * 0)
      (nhdsWithin 0 (Set.Ioi 0)) (nhds ct) := by
    have hc : Continuous fun v : ℝ => ct - v * 0 := by continuity
    have ht := hc.continuousAt.tendsto.mono_left
      (nhdsWithin_le_nhds :
        nhdsWithin (0 : ℝ) (Set.Ioi 0) ≤ nhds 0)
    simp only [mul_zero, sub_zero] at ht
    have hval : (fun v : ℝ => ct - v * 0) = fun _ : ℝ => ct := by
      funext v
      ring
    rw [hval]
    exact ht
  have hlt : (1 / 1000 : ℝ) < 1 := by norm_num
  have hs2 : Real.sqrt (1 - (1 / 1000 : ℝ) ^ 2) ^ 2 = 1 - (1 / 1000 : ℝ) ^ 2 :=
    Real.sq_sqrt (by norm_num)
  have hpos : 0 < Real.sqrt (1 - (1 / 1000 : ℝ) ^ 2) :=
    Real.sqrt_pos.mpr (by norm_num)
  have hub : Real.sqrt (1 - (1 / 1000 : ℝ) ^ 2) ≤ 1 := by nlinarith [hs2, hpos]
  have hlb : (9999994 : ℝ) / 10000000 ≤ Real.sqrt (1 - (1 / 1000 : ℝ) ^ 2) := by
    nlinarith [hs2, hpos]
  have hg_ub : 1 / Real.sqrt (1 - (1 / 1000 : ℝ) ^ 2) ≤ 1000005 / 1000000 := by
    rw [div_le_div_iff₀ hpos (by norm_num)]
    nlinarith [hlb]
  have hg_lb : 1 ≤ 1 / Real.sqrt (1 - (1 / 1000 : ℝ) ^ 2) := by
    rw [le_div_iff₀ hpos, one_mul]
    exact hub
  refine ⟨?_, ?_, ?_, ?_⟩
  · have h1 := (gamma_tendsto_one.mul hlin).sub hlin
    simp only [lorentz_transform, galilean_transform]
    simpa using h1
  · have hc2 : Filter.Tendsto (fun _ : ℝ => ct)
        (nhdsWithin 0 (Set.Ioi 0)) (nhds ct) := tendsto_const_nhds
    have h2 := (gamma_tendsto_one.mul hconst).sub hc2
    simp only [lorentz_transform, galilean_transform]
    have h2' : Filter.Tendsto (fun v : ℝ => gamma v * (ct - v * 0) - ct)
        (nhdsWithin 0 (Set.Ioi 0)) (nhds 0) := by simpa using h2
    exact h2'
  · simp only [lorentz_transform, galilean_transform, gamma_of_lt_one hlt]
    rw [abs_le]
    constructor <;> nlinarith [hg_ub, hg_lb]
  · simp only [lorentz_transform, galilean_transform, gamma_of_lt_one hlt]
    rw [abs_le]
    constructor <;> nlinarith [hg_ub, hg_lb]

end LorentzViz
